import Mathlib

/-
Verification development for the osu!mania to Vectra chart converter
(main.py).  Python strings are modelled as lists of characters; Python
int() literal parsing, str.strip, str.split and the hold-note regular
expression are embedded as executable functions on character lists.
Exceptions raised by int() are modelled with Except.  The float
arithmetic inside the coordinate mapper is modelled by exact rational
arithmetic, with Python int() conversion of a rational value as
truncation toward zero; this idealization of IEEE-754 doubles coincides
with the program exactly where every intermediate float operation is
exact, which covers the concrete instantiations proved below (keys 4
with the default width 512), and the mapper otherwise appears only as
the same opaque function on both sides of an equation.  Statements that
would range over inputs where double rounding or float-conversion
overflow determines the program's result are not asserted here.
-/

namespace Vectra

/-- Python strings are modelled as lists of characters. -/
abbrev Str := List Char

/-- Models Python str.strip with no argument: removes leading and trailing
whitespace characters. -/
def pyStrip (s : Str) : Str :=
  ((s.dropWhile Char.isWhitespace).reverse.dropWhile Char.isWhitespace).reverse

/-- Models Python str.startswith: the first argument is the candidate
initial segment, the second the string being inspected. -/
def startswith : Str → Str → Bool
  | [], _ => true
  | _ :: _, [] => false
  | p :: ps, c :: cs => p == c && startswith ps cs

/-- Models Python str.endswith by reversing both strings. -/
def endswith (suffix s : Str) : Bool :=
  startswith suffix.reverse s.reverse

/-- Models Python str.split with a one-character separator: no collapsing of
adjacent separators, and the empty string splits into one empty field. -/
def splitOnChar (sep : Char) : Str → List Str
  | [] => [[]]
  | c :: rest =>
    match splitOnChar sep rest, c == sep with
    | r, true => [] :: r
    | [], false => [[c]]
    | f :: fs, false => (c :: f) :: fs

/-- Value of a string of decimal digits, most significant first. -/
def digitsToNat (ds : Str) : Nat :=
  ds.foldl (fun acc c => acc * 10 + (c.toNat - '0'.toNat)) 0

/-- Models Python int(s) on a string: optional surrounding whitespace, an
optional sign, then one or more decimal digits; none models the ValueError
raised on any other input. -/
def pyInt (s : Str) : Option Int :=
  match pyStrip s with
  | [] => none
  | '+' :: ds =>
    if !ds.isEmpty && ds.all Char.isDigit then some (digitsToNat ds) else none
  | '-' :: ds =>
    if !ds.isEmpty && ds.all Char.isDigit then some (-(digitsToNat ds : Int)) else none
  | ds =>
    if ds.all Char.isDigit then some (digitsToNat ds) else none

/-- Models the regular expression match of one or more digits followed by a
colon, anchored at the start of the string, returning the digit group. -/
def matchDigitsColon (s : Str) : Option Int :=
  let ds := s.takeWhile Char.isDigit
  if ds.isEmpty then none
  else
    match s.dropWhile Char.isDigit with
    | ':' :: _ => some (digitsToNat ds)
    | _ => none

/-- Models the truth value of the Python expression t & 128: with two's
complement bitwise AND, the single bit 128 is set exactly when t modulo 256
is at least 128.  The function returns 128 or 0 accordingly. -/
def pyAnd128 (t : Int) : Int :=
  if 128 ≤ t.emod 256 then 128 else 0

/-- One parsed hit object, as built by parse_osu_hitobjects: the dictionary
with keys x, time, type and end_time. -/
structure Note where
  x : Int
  time : Int
  type_val : Int
  end_time : Option Int
deriving DecidableEq

/-- Parser state threaded through the line loop of parse_osu_hitobjects:
the current bracket section (sec models the Python variable named for the
section), the accumulated hit objects and the raw timing point lines. -/
structure ParseState where
  sec : Option Str
  hitobjects : List Note
  timing_points : List Str
deriving DecidableEq

/-- Name of the hit-objects section. -/
def hitObjectsSection : Str := "HitObjects".data

/-- Name of the timing-points section. -/
def timingPointsSection : Str := "TimingPoints".data

/-- One iteration of the line loop of parse_osu_hitobjects.  An error value
models the ValueError that int() raises on a non-integer field; every other
path returns the updated state. -/
def stepLine (st : ParseState) (raw : Str) : Except Str ParseState :=
  let ln := pyStrip raw
  if ln.isEmpty || startswith ['/', '/'] ln then .ok st
  else if startswith ['['] ln && endswith [']'] ln then
    .ok { st with sec := some (ln.drop 1).dropLast }
  else if st.sec = some hitObjectsSection then
    match splitOnChar ',' ln with
    | p0 :: _ :: p2 :: p3 :: _ :: rest =>
      match pyInt p0, pyInt p2, pyInt p3 with
      | some xv, some timev, some typev =>
        let e : Option Int :=
          if pyAnd128 typev ≠ 0 then
            match rest with
            | obj :: _ => matchDigitsColon obj
            | [] => none
          else none
        .ok { st with hitobjects := st.hitobjects ++ [⟨xv, timev, typev, e⟩] }
      | _, _, _ => .error ln
    | _ => .ok st
  else if st.sec = some timingPointsSection then
    .ok { st with timing_points := st.timing_points ++ [ln] }
  else .ok st

/-- The line loop of parse_osu_hitobjects: left-to-right processing that
stops at the first error, as an uncaught exception would. -/
def parseLines : ParseState → List Str → Except Str ParseState
  | st, [] => .ok st
  | st, ln :: rest =>
    match stepLine st ln with
    | .ok st2 => parseLines st2 rest
    | .error e => .error e

/-- Initial parser state: no current section, no notes, no timing points. -/
def initState : ParseState := ⟨none, [], []⟩

/-- Characters at which Python str.splitlines breaks a line: newline,
carriage return, vertical tab, form feed, the file, group and record
separators, next line, line separator and paragraph separator. -/
def isLineBreak (c : Char) : Bool :=
  c == '\n' || c == '\r' || c == '\x0b' || c == '\x0c' ||
    c == '\x1c' || c == '\x1d' || c == '\x1e' || c == '\x85' ||
    c == '\u2028' || c == '\u2029'

/-- Models Python str.splitlines: breaks at every line-break character,
with a carriage return followed by a newline counting as a single break,
and no empty final line after a trailing break. -/
def splitLines : Str → List Str
  | [] => []
  | '\r' :: '\n' :: rest => [] :: splitLines rest
  | c :: rest =>
    if isLineBreak c then [] :: splitLines rest
    else
      match splitLines rest with
      | [] => [[c]]
      | f :: fs => (c :: f) :: fs

/-- Embedding of parse_osu_hitobjects: returns the note list together with
the timing point lines of the metadata dictionary, or the first error. -/
def parse_osu_hitobjects (text : Str) : Except Str (List Note × List Str) :=
  match parseLines initState (splitLines text) with
  | .ok st => .ok (st.hitobjects, st.timing_points)
  | .error e => .error e

/-- Models Python int() applied to a rational value: truncation toward
zero, so the floor for nonnegative arguments and the ceiling for negative
ones. -/
def pyTrunc (q : ℚ) : Int := if q < 0 then ⌈q⌉ else ⌊q⌋

/-- Embedding of map_column_x_to_Vectra_x with the source's float
arithmetic idealized as exact rational arithmetic.  The idealization
agrees with the program exactly when every intermediate float operation
is exact, in particular at width 512 with keys a small power of two, the
only inputs at which the theorems below evaluate it; elsewhere it
appears only as the same function on both sides of an equation.  The
program's behavior where double rounding matters, or where conversion
of a huge integer to float raises OverflowError, is not captured, so no
theorem here quantifies over such inputs.  The two clamp statements of
the source are the two successive conditional rebindings of col. -/
def map_column_x_to_Vectra_x (x keys osu_playfield_width : Int) : Int :=
  let col_width : ℚ := (osu_playfield_width : ℚ) / (keys : ℚ)
  let col0 : Int := pyTrunc ((x : ℚ) / col_width)
  let col1 : Int := if col0 < 0 then 0 else col0
  let col2 : Int := if col1 ≥ keys then keys - 1 else col1
  pyTrunc ((col2 : ℚ) * ((osu_playfield_width : ℚ) / (keys : ℚ)) +
    ((osu_playfield_width : ℚ) / (keys : ℚ)) / 2)

/-- Decimal rendering of an integer, as Python str() inside format. -/
def intToStr (i : Int) : Str := (toString i).data

/-- Models the join of lines with a newline separator. -/
def joinWithNewline : List Str → Str
  | [] => []
  | [l] => l
  | l :: ls => l ++ '\n' :: joinWithNewline ls

/-- Models the replace of backslashes by forward slashes applied to the
song path. -/
def pyReplaceBackslash (s : Str) : Str :=
  s.map (fun c => if c == '\\' then '/' else c)

/-- Models the Python expression taking end_time or time: the or operator
of Python returns its first operand only when that operand is truthy, so a
present end time equal to 0 falls back to the hit time. -/
def pyOrEndpoint (n : Note) : Int :=
  match n.end_time with
  | none => n.time
  | some e => if e = 0 then n.time else e

/-- Models max_time of generate_map_lua: the Python max over the endpoints
of all notes, and 0 when the note list is empty. -/
def max_time (notes : List Note) : Int :=
  match notes.map pyOrEndpoint with
  | [] => 0
  | e :: es => es.foldl max e

/-- Value returned by map:getLength() in the generated text: the source
computes int((max_time // 1000) + 1) with Python floor division, applied
also when the note list is empty. -/
def getLength_value (notes : List Note) : Int :=
  (max_time notes).fdiv 1000 + 1

/-- Renders one note line of map:getNotes(), following the format string
of the source with its literal braces, indentation and separators. -/
def fmt_note_line (t ex speed slider_len time_ms : Int) : Str :=
  "    \x7b".data ++ intToStr t ++ ", ".data ++ intToStr ex ++ ", ".data ++
    intToStr speed ++ ", ".data ++ intToStr slider_len ++ ", ".data ++
    intToStr time_ms ++ "\x7d,".data

/-- The note loop of generate_map_lua: an append-only fold mirroring the
lines accumulator of the source.  Each iteration maps the x field with the
default playfield width 512 and renders the hard-coded type 1, speed 400
and slider length 0 together with the note time. -/
def note_lines (notes : List Note) (keys : Int) : List Str :=
  notes.foldl
    (fun acc n =>
      acc ++ [fmt_note_line 1 (map_column_x_to_Vectra_x n.x keys 512) 400 0 n.time]) []

/-- The comment line emitted just before the note table. -/
def notes_comment_line : Str :=
  "  -- (0 = none, 1 = normal, 2 = reverse, 3 = bad), (448 = up, 64 = down, 192 = left, 320 = right), speed, slider length, milliseconds to spawn".data

/-- Embedding of generate_map_lua: the header list of the source, then the
note lines, then the closing lines, joined by newlines. -/
def generate_map_lua (title song : Str) (notes : List Note) (keys : Int) : Str :=
  joinWithNewline (
    ["map = \x7b \x7d".data, [],
     "function map:getBackground()".data,
     "  return \"maps/".data ++ title ++ "/bg.jpg\"".data,
     "end".data, [],
     "function map:getTitle()".data,
     "  return \"".data ++ title ++ "\"".data,
     "end".data, [],
     "function map:getDifficult()".data,
     "  return \"Converted\"".data,
     "end".data, [],
     "function map:getPorter()".data,
     "  return \"osu-converter\"".data,
     "end".data, [],
     "function map:getSong()".data,
     "  return \"".data ++ pyReplaceBackslash song ++ "\"".data,
     "end".data, [],
     "function map:getLength()".data,
     "  return ".data ++ intToStr (getLength_value notes),
     "end".data, [],
     "function map:getNotes()".data,
     notes_comment_line,
     "  return \x7b".data]
    ++ note_lines notes keys
    ++ ["  \x7d".data, "end".data, [], "return map".data])

/-- Embedding of the driver sort: Python sorted with the time key is
specified as a stable sort, and the output of a stable sort is unique, so
the stable mergeSort of the core library is its exact semantics. -/
def sortNotes (notes : List Note) : List Note :=
  notes.mergeSort (fun a b => decide (a.time ≤ b.time))

/-- A raw line that cannot make the hit-object branch of stepLine raise:
it is blank, a comment, a section header, has fewer than five fields, or
its fields 0, 2 and 3 all parse as integers. -/
def lineSafe (raw : Str) : Bool :=
  let ln := pyStrip raw
  ln.isEmpty || startswith ['/', '/'] ln ||
    (startswith ['['] ln && endswith [']'] ln) ||
    match splitOnChar ',' ln with
    | p0 :: _ :: p2 :: p3 :: _ :: _ =>
      (pyInt p0).isSome && (pyInt p2).isSome && (pyInt p3).isSome
    | _ => true

/-- Modelled from the amended wording of the length claim: the effective
endpoint of a note is its end time when that is present and nonzero, and
its hit time otherwise. -/
def spec_endpoint (n : Note) : Int :=
  match n.end_time with
  | some e => if e ≠ 0 then e else n.time
  | none => n.time

/-- Modelled from the amended wording of the length claim: the chart
length is the floor of the maximal effective endpoint over a thousand,
plus one, and 1 for an empty note list. -/
def spec_chart_length (notes : List Note) : Int :=
  match (notes.map spec_endpoint).max? with
  | none => 1
  | some m => m.fdiv 1000 + 1

/-! Lemmas about the parser. -/

theorem matchDigitsColon_nonneg {s : Str} {e : Int}
    (h : matchDigitsColon s = some e) : 0 ≤ e := by
  simp only [matchDigitsColon] at h
  split at h
  · cases h
  · split at h
    · simp only [Option.some.injEq] at h
      omega
    · cases h

/-- Every end time held in a list of notes is nonnegative. -/
def goodEnds (ns : List Note) : Prop :=
  ∀ n ∈ ns, ∀ e : Int, n.end_time = some e → 0 ≤ e

theorem stepLine_goodEnds {st st2 : ParseState} {raw : Str}
    (hstep : stepLine st raw = .ok st2) (hst : goodEnds st.hitobjects) :
    goodEnds st2.hitobjects := by
  simp only [stepLine] at hstep
  split_ifs at hstep with h1 h2 h3 h4
  · cases hstep; exact hst
  · cases hstep; exact hst
  · split at hstep
    · split at hstep
      · cases hstep
        intro n hn e he
        rcases List.mem_append.mp hn with hn | hn
        · exact hst n hn e he
        · simp only [List.mem_singleton] at hn
          subst hn
          simp only at he
          split at he
          · split at he
            · exact matchDigitsColon_nonneg he
            · simp at he
          · simp at he
      · simp at hstep
    · cases hstep; exact hst
  · cases hstep; exact hst
  · cases hstep; exact hst

theorem parseLines_goodEnds :
    ∀ (lines : List Str) (st st2 : ParseState),
      parseLines st lines = .ok st2 → goodEnds st.hitobjects → goodEnds st2.hitobjects := by
  intro lines
  induction lines with
  | nil =>
    intro st st2 h hst
    cases h
    exact hst
  | cons l ls ih =>
    intro st st2 h hst
    simp only [parseLines] at h
    cases hs : stepLine st l with
    | ok st' =>
      rw [hs] at h
      exact ih st' st2 h (stepLine_goodEnds hs hst)
    | error e =>
      rw [hs] at h
      simp at h

theorem stepLine_skip {st : ParseState} {raw : Str}
    (hsec : st.sec = some hitObjectsSection)
    (hhead : ¬(startswith ['['] (pyStrip raw) && endswith [']'] (pyStrip raw)) = true)
    (hlen : (splitOnChar ',' (pyStrip raw)).length < 5) :
    stepLine st raw = .ok st := by
  simp only [stepLine]
  by_cases h1 : ((pyStrip raw).isEmpty || startswith ['/', '/'] (pyStrip raw)) = true
  · rw [if_pos h1]
  · rw [if_neg h1, if_neg hhead, if_pos hsec]
    rcases hp : splitOnChar ',' (pyStrip raw) with _ | ⟨p0, _ | ⟨p1, _ | ⟨p2, _ | ⟨p3, _ | ⟨p4, tl⟩⟩⟩⟩⟩
    · rfl
    · rfl
    · rfl
    · rfl
    · rfl
    · rw [hp] at hlen
      simp at hlen
      omega

theorem stepLine_ok_of_safe (st : ParseState) (raw : Str) (h : lineSafe raw = true) :
    ∃ st2, stepLine st raw = .ok st2 := by
  simp only [stepLine]
  by_cases h1 : ((pyStrip raw).isEmpty || startswith ['/', '/'] (pyStrip raw)) = true
  · exact ⟨st, by rw [if_pos h1]⟩
  · rw [if_neg h1]
    by_cases h2 : (startswith ['['] (pyStrip raw) && endswith [']'] (pyStrip raw)) = true
    · exact ⟨_, by rw [if_pos h2]⟩
    · rw [if_neg h2]
      by_cases h3 : st.sec = some hitObjectsSection
      · rw [if_pos h3]
        simp only [lineSafe, Bool.or_eq_true] at h
        rcases h with ((hb | hb) | hb) | hm
        · exact absurd (by rw [hb]; rfl : ((pyStrip raw).isEmpty || startswith ['/', '/'] (pyStrip raw)) = true) h1
        · exact absurd (by rw [hb, Bool.or_true] : ((pyStrip raw).isEmpty || startswith ['/', '/'] (pyStrip raw)) = true) h1
        · exact absurd hb h2
        · rcases hp : splitOnChar ',' (pyStrip raw) with _ | ⟨p0, _ | ⟨p1, _ | ⟨p2, _ | ⟨p3, _ | ⟨p4, tl⟩⟩⟩⟩⟩
          · exact ⟨st, rfl⟩
          · exact ⟨st, rfl⟩
          · exact ⟨st, rfl⟩
          · exact ⟨st, rfl⟩
          · exact ⟨st, rfl⟩
          · rw [hp] at hm
            simp only [Bool.and_eq_true, Option.isSome_iff_exists] at hm
            obtain ⟨⟨⟨xv, hx⟩, ⟨tv, ht⟩⟩, ⟨yv, hy⟩⟩ := hm
            clear hp
            refine ⟨{ st with hitobjects := st.hitobjects ++
              [⟨xv, tv, yv,
                if pyAnd128 yv ≠ 0 then
                  (match tl with | obj :: _ => matchDigitsColon obj | [] => none)
                else none⟩] }, ?_⟩
            simp only [hx, ht, hy]
      · rw [if_neg h3]
        by_cases h4 : st.sec = some timingPointsSection
        · exact ⟨_, by rw [if_pos h4]⟩
        · exact ⟨st, by rw [if_neg h4]⟩

theorem parseLines_ok_of_safe :
    ∀ (lines : List Str) (st : ParseState),
      (∀ l ∈ lines, lineSafe l = true) → ∃ st2, parseLines st lines = .ok st2 := by
  intro lines
  induction lines with
  | nil => exact fun st _ => ⟨st, rfl⟩
  | cons l ls ih =>
    intro st hsafe
    obtain ⟨st2, hs⟩ := stepLine_ok_of_safe st l (hsafe l (by simp))
    obtain ⟨st3, hp⟩ := ih st2 (fun m hm => hsafe m (by simp [hm]))
    exact ⟨st3, by simp only [parseLines]; rw [hs]; exact hp⟩

/-! Lemmas about the generator and the driver sort. -/

theorem foldl_push_eq_map {α β : Type} (f : α → β) :
    ∀ (l : List α) (acc : List β), l.foldl (fun a n => a ++ [f n]) acc = acc ++ l.map f := by
  intro l
  induction l with
  | nil => intro acc; simp
  | cons x xs ih => intro acc; simp [ih]

theorem note_lines_eq_map (notes : List Note) (keys : Int) :
    note_lines notes keys =
      notes.map (fun n =>
        fmt_note_line 1 (map_column_x_to_Vectra_x n.x keys 512) 400 0 n.time) := by
  unfold note_lines
  rw [foldl_push_eq_map]
  simp

theorem spec_endpoint_eq (n : Note) : spec_endpoint n = pyOrEndpoint n := by
  unfold spec_endpoint pyOrEndpoint
  cases n.end_time with
  | none => rfl
  | some e => by_cases he : e = 0 <;> simp [he]

theorem timeLE_trans (a b c : Note) (h1 : decide (a.time ≤ b.time) = true)
    (h2 : decide (b.time ≤ c.time) = true) : decide (a.time ≤ c.time) = true := by
  simp only [decide_eq_true_eq] at *
  omega

theorem timeLE_total (a b : Note) :
    (decide (a.time ≤ b.time) || decide (b.time ≤ a.time)) = true := by
  simp only [Bool.or_eq_true, decide_eq_true_eq]
  omega

theorem sortNotes_pairwise (notes : List Note) :
    (sortNotes notes).Pairwise (fun a b : Note => a.time ≤ b.time) := by
  have h := List.sorted_mergeSort timeLE_trans timeLE_total notes
  exact h.imp (fun hab => by simpa using hab)

theorem sortNotes_stable (notes : List Note) (t : Int) :
    (sortNotes notes).filter (fun n => n.time == t) =
      notes.filter (fun n => n.time == t) := by
  have hsub : List.Sublist (notes.filter (fun n => n.time == t)) notes :=
    List.filter_sublist notes
  have hpw : (notes.filter (fun n => n.time == t)).Pairwise
      (fun a b : Note => decide (a.time ≤ b.time) = true) := by
    apply List.pairwise_of_forall_mem_list
    intro a ha b hb
    have ha2 := (List.mem_filter.mp ha).2
    have hb2 := (List.mem_filter.mp hb).2
    simp only [beq_iff_eq] at ha2 hb2
    simp only [decide_eq_true_eq]
    omega
  have h2 : List.Sublist (notes.filter (fun n => n.time == t)) (sortNotes notes) :=
    List.sublist_mergeSort timeLE_trans timeLE_total hpw hsub
  have h3 := h2.filter (fun n => n.time == t)
  simp only [List.filter_filter, Bool.and_self] at h3
  have h4 : ((sortNotes notes).filter (fun n => n.time == t)).length =
      (notes.filter (fun n => n.time == t)).length :=
    ((List.mergeSort_perm notes _).filter _).length_eq
  exact (h3.eq_of_length h4.symm).symm

theorem getLength_eq_spec (notes : List Note) :
    getLength_value notes = spec_chart_length notes := by
  unfold getLength_value spec_chart_length max_time
  rw [show spec_endpoint = pyOrEndpoint from funext spec_endpoint_eq]
  cases hm : notes.map pyOrEndpoint with
  | nil => simp [List.max?, Int.zero_fdiv]
  | cons e es => simp [List.max?]

/-! Claim theorems. -/

/-- C1, counterexample: for the empty note list the generated length is 1,
not 0 as the claim states, because the source adds 1 after the floor
division also in the empty case. -/
theorem C1_empty_length_counterexample :
    getLength_value [] = 1 ∧ getLength_value [] ≠ 0 := by decide

/-- C1, amended: the generated chart length equals the floor of the
maximal effective endpoint divided by 1000, plus 1, where the effective
endpoint of a note is its end time when present and nonzero and its hit
time otherwise; for an empty note list the generated length is 1. -/
theorem C1_length_amended (notes : List Note) :
    getLength_value notes = spec_chart_length notes :=
  getLength_eq_spec notes

/-- C2, counterexample: a hit-object line whose fields are not integer
literals makes the Chart Reader raise, so the parse of this input is not
successful and the reader is not maximally permissive. -/
theorem C2_parser_error_counterexample :
    (parse_osu_hitobjects ("[HitObjects]\na,b,c,d,e".data)).isOk = false := rfl

/-- C2, amended: the Chart Reader raises no error on any input whose lines
are each blank, a comment, a section header, made of fewer than five
comma-separated fields, or carrying integer literals in fields 0, 2 and 3;
partial or irregular lines of these kinds are handled by omission.  A
hit-object line with five or more fields and a non-integer field 0, 2 or 3
raises instead. -/
theorem C2_parser_amended (text : Str)
    (h : ∀ l ∈ splitLines text, lineSafe l = true) :
    (parse_osu_hitobjects text).isOk = true := by
  obtain ⟨st2, hp⟩ := parseLines_ok_of_safe (splitLines text) initState h
  simp only [parse_osu_hitobjects, hp]
  rfl

theorem C2_parser_amended_witness :
    (parse_osu_hitobjects ("[HitObjects]\n256,192,500,1,0\nbad line".data)).isOk = true :=
  C2_parser_amended _ (by decide)

/-- C3, counterexample: the Chart Reader parses the hold end time without
comparing it to the hit time, so a note with end time 5 and hit time 1000
is produced and the claimed invariant fails. -/
theorem C3_end_time_counterexample :
    parse_osu_hitobjects ("[HitObjects]\n0,0,1000,128,0,5:0:0:0:".data) =
      .ok ([⟨0, 1000, 128, some 5⟩], []) ∧ ¬((1000 : Int) ≤ 5) :=
  ⟨rfl, by decide⟩

/-- C3, amended: for every NoteEvent produced by the Chart Reader, whenever
its end time is present it is a nonnegative integer, being extracted from
an unsigned digit string; no order relation with the hit time is
guaranteed. -/
theorem C3_end_time_amended (text : Str) (notes : List Note) (tps : List Str)
    (h : parse_osu_hitobjects text = .ok (notes, tps)) :
    ∀ n ∈ notes, ∀ e : Int, n.end_time = some e → 0 ≤ e := by
  simp only [parse_osu_hitobjects] at h
  cases hs : parseLines initState (splitLines text) with
  | ok st =>
    rw [hs] at h
    simp only [Except.ok.injEq, Prod.mk.injEq] at h
    obtain ⟨h1, h2⟩ := h
    subst h1
    exact parseLines_goodEnds _ _ _ hs (fun n hn => absurd hn (by simp [initState]))
  | error e =>
    rw [hs] at h
    cases h

theorem C3_end_time_amended_witness : 0 ≤ (900 : Int) :=
  C3_end_time_amended ("[HitObjects]\n448,192,750,128,0,900:0:0:0:".data)
    [⟨448, 750, 128, some 900⟩] [] rfl ⟨448, 750, 128, some 900⟩ (by decide) 900 rfl

/-- C6: with keys 4 and playfield width 512 the coordinate mapper sends 0
and 127 to 64, 128 to 192 and 511 to 448. -/
theorem C6_map_values :
    map_column_x_to_Vectra_x 0 4 512 = 64 ∧ map_column_x_to_Vectra_x 127 4 512 = 64 ∧
    map_column_x_to_Vectra_x 128 4 512 = 192 ∧ map_column_x_to_Vectra_x 511 4 512 = 448 := by
  refine ⟨?_, ?_, ?_, ?_⟩ <;>
    · simp only [map_column_x_to_Vectra_x, pyTrunc]
      norm_num [Int.floor_eq_iff]

/-- C7: a line inside the hit-objects section with fewer than five
comma-separated fields, and which is not itself a section header,
contributes no NoteEvent, leaves the state untouched and does not change
how any subsequent line is parsed. -/
theorem C7_short_line_skipped (st : ParseState) (raw : Str) (rest : List Str)
    (hsec : st.sec = some hitObjectsSection)
    (hhead : ¬(startswith ['['] (pyStrip raw) && endswith [']'] (pyStrip raw)) = true)
    (hlen : (splitOnChar ',' (pyStrip raw)).length < 5) :
    stepLine st raw = .ok st ∧ parseLines st (raw :: rest) = parseLines st rest := by
  have h := stepLine_skip hsec hhead hlen
  exact ⟨h, by simp only [parseLines]; rw [h]⟩

theorem C7_short_line_skipped_witness :
    stepLine ⟨some hitObjectsSection, [], []⟩ "1,2".data = .ok ⟨some hitObjectsSection, [], []⟩ ∧
    parseLines ⟨some hitObjectsSection, [], []⟩ ["1,2".data, "256,192,500,1,0".data] =
      parseLines ⟨some hitObjectsSection, [], []⟩ ["256,192,500,1,0".data] :=
  C7_short_line_skipped ⟨some hitObjectsSection, [], []⟩ "1,2".data ["256,192,500,1,0".data]
    rfl (by decide) (by decide)

/-- C8: the generator renders exactly one line per input note, in input
order, and each line is the rendering of the tuple with note type 1, the
mapped x coordinate, speed 400, hold length 0 and the hit time, also for
hold notes. -/
theorem C8_note_tuples (notes : List Note) (keys : Int) :
    note_lines notes keys =
      notes.map (fun n =>
        fmt_note_line 1 (map_column_x_to_Vectra_x n.x keys 512) 400 0 n.time) :=
  note_lines_eq_map notes keys

/-- C9: the driver sorts the parsed notes so that rendered tuples come in
ascending hit-time order, notes of equal hit time keep their original
relative order, and the generator preserves this order one line per
note. -/
theorem C9_sorted_stable (notes : List Note) (keys : Int) :
    (sortNotes notes).Pairwise (fun a b : Note => a.time ≤ b.time) ∧
    (∀ t : Int, (sortNotes notes).filter (fun n => n.time == t) =
      notes.filter (fun n => n.time == t)) ∧
    note_lines (sortNotes notes) keys =
      (sortNotes notes).map (fun n =>
        fmt_note_line 1 (map_column_x_to_Vectra_x n.x keys 512) 400 0 n.time) :=
  ⟨sortNotes_pairwise notes, sortNotes_stable notes, note_lines_eq_map (sortNotes notes) keys⟩

end Vectra
